import Mathlib

/-!
Formal model of the webhook-verification and routing core of the
linear-kilo-webhook service, together with proofs of its specified
properties.

The development shallowly embeds the Python sources:

* `src/linear/webhook_handler.py` — HMAC signature verification, bearer-token
  verification, payload parsing, the assignment classifier, and the task
  router;
* `src/linear/models.py` — the pydantic models for Linear webhook events;
* `src/kilo/client.py` — the Kilo cloud client (session creation and status
  queries), the agent router (task submission, branch-name generation, the
  in-memory session table).

Bytes are modelled as `List Nat` (each element a byte value), machine words
as `Nat` reduced modulo `2 ^ 32` where the source overflows, Python `dict`s
as association lists, and Python `None` as `Option.none`.  Functions keep
the names of the source functions they embed.
-/

set_option maxRecDepth 1000000

/-! ## SHA-256 and HMAC-SHA256, as used by `hashlib` / `hmac`

A byte-level implementation of FIPS 180-4 SHA-256 and RFC 2104 HMAC,
embedding the calls `hmac.new(secret, body, hashlib.sha256).hexdigest()`
from `webhook_handler.py`.  Words are `Nat` values kept below `2 ^ 32`.
-/

namespace Crypto

def w32 : Nat := 4294967296

def rotr (n x : Nat) : Nat := ((x >>> n) ||| (x <<< (32 - n))) % w32

def not32 (x : Nat) : Nat := 4294967295 ^^^ x

def bigSigma0 (x : Nat) : Nat := rotr 2 x ^^^ rotr 13 x ^^^ rotr 22 x

def bigSigma1 (x : Nat) : Nat := rotr 6 x ^^^ rotr 11 x ^^^ rotr 25 x

def smallSigma0 (x : Nat) : Nat := rotr 7 x ^^^ rotr 18 x ^^^ (x >>> 3)

def smallSigma1 (x : Nat) : Nat := rotr 17 x ^^^ rotr 19 x ^^^ (x >>> 10)

def ch (x y z : Nat) : Nat := (x &&& y) ^^^ (not32 x &&& z)

def maj (x y z : Nat) : Nat := (x &&& y) ^^^ (x &&& z) ^^^ (y &&& z)

/-- The 64 SHA-256 round constants. -/
def K : List Nat :=
  [1116352408, 1899447441, 3049323471, 3921009573, 961987163,
   1508970993, 2453635748, 2870763221, 3624381080, 310598401,
   607225278, 1426881987, 1925078388, 2162078206, 2614888103,
   3248222580, 3835390401, 4022224774, 264347078, 604807628,
   770255983, 1249150122, 1555081692, 1996064986, 2554220882,
   2821834349, 2952996808, 3210313671, 3336571891, 3584528711,
   113926993, 338241895, 666307205, 773529912, 1294757372,
   1396182291, 1695183700, 1986661051, 2177026350, 2456956037,
   2730485921, 2820302411, 3259730800, 3345764771, 3516065817,
   3600352804, 4094571909, 275423344, 430227734, 506948616,
   659060556, 883997877, 958139571, 1322822218, 1537002063,
   1747873779, 1955562222, 2024104815, 2227730452, 2361852424,
   2428436474, 2756734187, 3204031479, 3329325298]

/-- The eight working variables of the compression function. -/
structure Hash8 where
  a : Nat
  b : Nat
  c : Nat
  d : Nat
  e : Nat
  f : Nat
  g : Nat
  h : Nat
deriving DecidableEq

def H0 : Hash8 :=
  ⟨1779033703, 3144134277, 1013904242, 2773480762, 1359893119, 2600822924, 528734635, 1541459225⟩

/-- The `n` low-order bytes of `x`, most significant first. -/
def toBytesBE : Nat → Nat → List Nat
  | 0, _ => []
  | n + 1, x => toBytesBE n (x >>> 8) ++ [x % 256]

/-- Group bytes into big-endian 32-bit words (four bytes per word). -/
def toWords : List Nat → List Nat
  | b0 :: b1 :: b2 :: b3 :: rest => (((b0 * 256 + b1) * 256 + b2) * 256 + b3) :: toWords rest
  | _ => []

/-- SHA-256 padding: `0x80`, zeros, and the 64-bit big-endian bit length. -/
def pad (msg : List Nat) : List Nat :=
  msg ++ 0x80 :: (List.replicate ((64 - (msg.length + 9) % 64) % 64) 0 ++ toBytesBE 8 (8 * msg.length))

def stepWord (ws : List Nat) : List Nat :=
  let l := ws.length
  ws ++ [(smallSigma1 (ws.getD (l - 2) 0) + ws.getD (l - 7) 0 +
          smallSigma0 (ws.getD (l - 15) 0) + ws.getD (l - 16) 0) % w32]

def extendWords : Nat → List Nat → List Nat
  | 0, ws => ws
  | n + 1, ws => extendWords n (stepWord ws)

def compressStep (st : Hash8) (kw : Nat × Nat) : Hash8 :=
  let t1 := (st.h + bigSigma1 st.e + ch st.e st.f st.g + kw.1 + kw.2) % w32
  let t2 := (bigSigma0 st.a + maj st.a st.b st.c) % w32
  ⟨(t1 + t2) % w32, st.a, st.b, st.c, (st.d + t1) % w32, st.e, st.f, st.g⟩

def addHash8 (x y : Hash8) : Hash8 :=
  ⟨(x.a + y.a) % w32, (x.b + y.b) % w32, (x.c + y.c) % w32, (x.d + y.d) % w32,
   (x.e + y.e) % w32, (x.f + y.f) % w32, (x.g + y.g) % w32, (x.h + y.h) % w32⟩

def processChunk (st : Hash8) (chunk : List Nat) : Hash8 :=
  let ws := extendWords 48 (toWords chunk)
  addHash8 st ((K.zip ws).foldl compressStep st)

/-- Split a byte list into 64-byte chunks.  The fuel argument (initially the
length of the list) makes the recursion structural so that the kernel can
evaluate the function. -/
def chunksOf64Fuel : Nat → List Nat → List (List Nat)
  | 0, _ => []
  | _, [] => []
  | fuel + 1, x :: rest => (x :: rest.take 63) :: chunksOf64Fuel fuel (rest.drop 63)

def chunksOf64 (l : List Nat) : List (List Nat) := chunksOf64Fuel l.length l

def hash8Bytes (st : Hash8) : List Nat :=
  toBytesBE 4 st.a ++ toBytesBE 4 st.b ++ toBytesBE 4 st.c ++ toBytesBE 4 st.d ++
  toBytesBE 4 st.e ++ toBytesBE 4 st.f ++ toBytesBE 4 st.g ++ toBytesBE 4 st.h

/-- The SHA-256 digest of a byte string, as 32 bytes. -/
def sha256Bytes (msg : List Nat) : List Nat :=
  hash8Bytes ((chunksOf64 (pad msg)).foldl processChunk H0)

/-- A nibble as a lowercase hexadecimal character. -/
def hexDigit (n : Nat) : Char := if n < 10 then Char.ofNat (48 + n) else Char.ofNat (87 + n)

def byteToHex (b : Nat) : List Char := [hexDigit (b / 16), hexDigit (b % 16)]

/-- Lowercase hex encoding of a byte string, as produced by `.hexdigest()`. -/
def bytesToHexStr (bs : List Nat) : String := ⟨(bs.map byteToHex).flatten⟩

def sha256Hex (msg : List Nat) : String := bytesToHexStr (sha256Bytes msg)

/-- HMAC-SHA256 (RFC 2104) with the 64-byte SHA-256 block size, embedding
`hmac.new(key, msg, hashlib.sha256).digest()`. -/
def hmacSha256Bytes (key msg : List Nat) : List Nat :=
  let k0 := if key.length > 64 then sha256Bytes key else key
  let kp := k0 ++ List.replicate (64 - k0.length) 0
  sha256Bytes ((kp.map (· ^^^ 0x5c)) ++ sha256Bytes ((kp.map (· ^^^ 0x36)) ++ msg))

/-- Embeds `hmac.new(key, msg, hashlib.sha256).hexdigest()`. -/
def hmacSha256Hex (key msg : List Nat) : String := bytesToHexStr (hmacSha256Bytes key msg)

end Crypto

/-! ## Python helper semantics

Helpers embedding the Python string and dict operations the sources use.
Character classes are modelled on their ASCII portion (the sources only ever
build and compare ASCII header names, scheme words, slugs and hex digests).
-/

namespace Py

/-- UTF-8 encoding of one character, embedding Python `str.encode()`. -/
def charUtf8 (c : Char) : List Nat :=
  let n := c.toNat
  if n < 0x80 then [n]
  else if n < 0x800 then [0xC0 ||| (n >>> 6), 0x80 ||| (n &&& 0x3F)]
  else if n < 0x10000 then
    [0xE0 ||| (n >>> 12), 0x80 ||| ((n >>> 6) &&& 0x3F), 0x80 ||| (n &&& 0x3F)]
  else
    [0xF0 ||| (n >>> 18), 0x80 ||| ((n >>> 12) &&& 0x3F),
     0x80 ||| ((n >>> 6) &&& 0x3F), 0x80 ||| (n &&& 0x3F)]

/-- UTF-8 bytes of a string, embedding Python `str.encode()`. -/
def utf8Bytes (s : String) : List Nat := (s.data.map charUtf8).flatten

/-- Lowercasing, embedding the ASCII portion of Python `str.lower()`. -/
def pyLower (s : String) : String := ⟨s.data.map Char.toLower⟩

/-- Truthiness of an optional string: Python treats both `None` and the empty
string as falsy. -/
def pyTruthy : Option String → Bool
  | none => false
  | some s => s ≠ ""

/-- The ASCII portion of the whitespace class used by Python `str.split()`
with no separator argument. -/
def pyIsSpaceChar (c : Char) : Bool :=
  c == ' ' || c == '\t' || c == '\n' || c == '\r' || c == '\x0b' || c == '\x0c'

/-- Worker for `pySplitWs`: `cur` is the current word, reversed. -/
def pySplitWsAux : List Char → List Char → List String
  | cur, [] => if cur.isEmpty then [] else [⟨cur.reverse⟩]
  | cur, c :: cs =>
    if pyIsSpaceChar c then
      if cur.isEmpty then pySplitWsAux [] cs else ⟨cur.reverse⟩ :: pySplitWsAux [] cs
    else pySplitWsAux (c :: cur) cs

/-- Embeds Python `str.split()` (no argument): split on runs of whitespace,
discarding empty pieces. -/
def pySplitWs (s : String) : List String := pySplitWsAux [] s.data

/-- Lookup in a Python dict, modelled as an association list with unique
keys: the value at the first matching key, or `none`.  Embeds both
`d.get(k)` and the `k in d` / `d[k]` idiom. -/
def dictGet (m : List (String × String)) (k : String) : Option String :=
  (m.find? (fun p => p.1 == k)).map (fun p => p.2)

/-- The substring after the last `"@"` of `s` (the whole of `s` when it has
no `"@"`), embedding the Python idiom `s.split("@")[-1]`. -/
def afterLastAt (s : String) : String :=
  ⟨(s.data.reverse.takeWhile (fun c => c ≠ '@')).reverse⟩

/-- Embeds Python `s.startswith(p)`. -/
def pyStartsWith (s p : String) : Bool := p.data.isPrefixOf s.data

end Py

/-! ## JSON values

The decoded form of a webhook body, as produced by `json.loads`.  Numbers
are modelled as integers (no claim depends on float payload fields); objects
are association lists of key-value pairs. -/

inductive Json where
  | null : Json
  | bool (b : Bool) : Json
  | num (n : Int) : Json
  | str (s : String) : Json
  | arr (elems : List Json) : Json
  | obj (kvs : List (String × Json)) : Json

/-- Lookup in a decoded JSON object.  `json.loads` keeps the last value of a
duplicated key, so the search runs over the reversed entry list. -/
def jsonGet (kvs : List (String × Json)) (k : String) : Option Json :=
  (kvs.reverse.find? (fun p => p.1 == k)).map (fun p => p.2)

/-! ## The pydantic models of `src/linear/models.py` -/

namespace Linear

/-- The `LinearAction` str-enum. -/
inductive LinearAction where
  | create
  | update
  | delete
  | remove
deriving DecidableEq

/-- The `LinearWebhookType` str-enum; constructors carry the member values
`"Issue"`, `"Comment"`, `"Project"`, `"Cycle"`. -/
inductive LinearWebhookType where
  | Issue
  | Comment
  | Project
  | Cycle
deriving DecidableEq

/-- The `LinearUser` model: all three fields required strings. -/
structure LinearUser where
  id : String
  name : String
  email : String
deriving DecidableEq

/-- The `LinearIssueData` model.  `id`, `identifier` and `title` are required;
every other field defaults to `None`.  The `state`, `project` and `team`
fields are arbitrary dicts, `labels` a list of dicts; the two datetime
fields are kept as their raw payload text. -/
structure LinearIssueData where
  id : String
  identifier : String
  title : String
  description : Option String := none
  state : Option (List (String × Json)) := none
  assignee : Option LinearUser := none
  creator : Option LinearUser := none
  priority : Option Int := none
  labels : Option (List (List (String × Json))) := none
  project : Option (List (String × Json)) := none
  team : Option (List (String × Json)) := none
  url : Option String := none
  created_at : Option String := none
  updated_at : Option String := none

/-- The value of the `data` field of a parsed `LinearWebhookRequest`: the
union `LinearIssueData | dict[str, Any]`, tried in that order. -/
inductive DataField where
  | typed (d : LinearIssueData)
  | opaqueMap (kvs : List (String × Json))

/-- The `LinearWebhookRequest` model: all three fields default to `None`. -/
structure LinearWebhookRequest where
  action : Option LinearAction := none
  type : Option LinearWebhookType := none
  data : Option DataField := none

/-- Embeds `LinearWebhookRequest.is_issue_assigned`. -/
def is_issue_assigned (w : LinearWebhookRequest) : Bool :=
  if w.type != some .Issue then false
  else if !(w.action == some .create || w.action == some .update) then false
  else
    match w.data with
    | some (.typed d) => d.assignee.isSome
    | _ => false

/-- Embeds `LinearWebhookRequest.get_assignee_email`. -/
def get_assignee_email (w : LinearWebhookRequest) : Option String :=
  match w.data with
  | some (.typed d) => d.assignee.map (fun u => u.email)
  | _ => none

/-- The issue summary dict built by `get_issue_summary`.  Each field models
one key of the returned dict; `none` stands both for a key holding `None` and
for an absent key, which every consumer (`dict.get` access in
`src/kilo/client.py`) treats alike. -/
structure IssueSummary where
  id : Option String := none
  identifier : Option String := none
  title : Option String := none
  description : Option String := none
  assignee : Option String := none
  url : Option String := none
  priority : Option Int := none
deriving DecidableEq

/-- Embeds `LinearWebhookRequest.get_issue_summary`: the empty dict unless
the data parsed as a typed issue. -/
def get_issue_summary (w : LinearWebhookRequest) : IssueSummary :=
  match w.data with
  | some (.typed d) =>
    { id := some d.id, identifier := some d.identifier, title := some d.title,
      description := d.description, assignee := d.assignee.map (fun u => u.email),
      url := d.url, priority := d.priority }
  | _ => {}

end Linear

/-! ## The webhook handler of `src/linear/webhook_handler.py` -/

namespace Handler

open Linear Py

/-- Embeds `LinearWebhookHandler.verify_signature`.  The configured secret is
an optional string (`None` and `""` are both falsy and skip verification);
the `linear-signature` header is an optional string (an absent header and an
empty one both take the missing-header branch); the body is raw bytes.
`hmac.compare_digest` is modelled as string equality — it differs from `==`
only in timing, except that on non-ASCII text it raises, which is not
modelled. -/
def verify_signature (webhook_secret : Option String) (signature : Option String)
    (body : List Nat) : Bool :=
  match webhook_secret with
  | none => true
  | some sec =>
    if sec = "" then true
    else
      match signature with
      | none => false
      | some sig =>
        if sig = "" then false
        else sig == Crypto.hmacSha256Hex (utf8Bytes sec) body

/-- Embeds `LinearWebhookHandler.verify_bearer_token`.  The configured token
and the `authorization` header are optional strings with Python truthiness;
the header is split on whitespace runs and must give exactly two parts with
a case-insensitively `"bearer"` scheme. -/
def verify_bearer_token (bearer_token : Option String) (auth_header : Option String) : Bool :=
  match bearer_token with
  | none => true
  | some tok =>
    if tok = "" then true
    else
      match auth_header with
      | none => false
      | some h =>
        if h = "" then false
        else
          match pySplitWs h with
          | [p0, p1] => if pyLower p0 == "bearer" then p1 == tok else false
          | _ => false

/-- Rendering of an optional `LinearWebhookType` inside an f-string, as its
member value (`None` for an absent field).  The exact text Python produces
for a str-mixin enum member varies across interpreter versions; the claims
depend only on which branch built the reason. -/
def renderTypeField : Option LinearWebhookType → String
  | none => "None"
  | some .Issue => "Issue"
  | some .Comment => "Comment"
  | some .Project => "Project"
  | some .Cycle => "Cycle"

/-- Rendering of an optional `LinearAction` inside an f-string; see
`renderTypeField`. -/
def renderActionField : Option LinearAction → String
  | none => "None"
  | some .create => "create"
  | some .update => "update"
  | some .delete => "delete"
  | some .remove => "remove"

/-- Embeds `LinearWebhookHandler.should_process`. -/
def should_process (w : LinearWebhookRequest) : Bool × String :=
  if w.type != some .Issue then
    (false, "Ignoring non-issue webhook: " ++ renderTypeField w.type)
  else if !(w.action == some .create || w.action == some .update) then
    (false, "Ignoring action: " ++ renderActionField w.action)
  else if !(is_issue_assigned w) then
    (false, "Issue not assigned to anyone")
  else
    (true, "Processing assigned issue")

/-- Embeds `TaskRouter.get_agent_for_assignee`: direct email key, then the
`"@" + domain` key (domain is the substring after the last `"@"`), then the
literal `"default"` key. -/
def get_agent_for_assignee (agent_mapping : List (String × String))
    (assignee_email : String) : Option String :=
  match dictGet agent_mapping assignee_email with
  | some agent => some agent
  | none =>
    match dictGet agent_mapping ("@" ++ afterLastAt assignee_email) with
    | some agent => some agent
    | none => dictGet agent_mapping "default"

/-- The resolution procedure as the specification words it, for comparison
with `get_agent_for_assignee`: exact email key, else `"@" + domainPartOf
email` where `domainPartOf` takes the substring after the last `"@"`, else
the literal key `"default"`, else null. -/
def resolveAgentSpec (mapping : List (String × String)) (email : String) : Option String :=
  match dictGet mapping email with
  | some a => some a
  | none =>
    match dictGet mapping ("@" ++ afterLastAt email) with
    | some a => some a
    | none => dictGet mapping "default"

/-! ### Payload parsing (`parse_payload` with the pydantic validators)

The validators model pydantic v2 lax-mode validation of the generated
models: enum fields accept exactly their member values, `str` fields accept
exactly strings, `int` fields integers, nested models recurse, and the
union `LinearIssueData | dict[str, Any]` tries the typed model first and
falls back to the raw object.  Datetime text is not validated (any string
or number is kept as text); no claim depends on the typed/opaque boundary
of a payload whose only flaw is an unparsable datetime. -/

/-- Validation of the `action` field value: `None` or a member value. -/
def parseActionVal : Json → Option (Option LinearAction)
  | .null => some none
  | .str "create" => some (some .create)
  | .str "update" => some (some .update)
  | .str "delete" => some (some .delete)
  | .str "remove" => some (some .remove)
  | _ => none

/-- Validation of the `type` field value: `None` or a member value. -/
def parseTypeVal : Json → Option (Option LinearWebhookType)
  | .null => some none
  | .str "Issue" => some (some .Issue)
  | .str "Comment" => some (some .Comment)
  | .str "Project" => some (some .Project)
  | .str "Cycle" => some (some .Cycle)
  | _ => none

/-- A required `str` field. -/
def asStr : Json → Option String
  | .str s => some s
  | _ => none

/-- An optional `str | None` field (absent, `null`, or a string). -/
def asOptStr : Option Json → Option (Option String)
  | none => some none
  | some .null => some none
  | some (.str s) => some (some s)
  | some _ => none

/-- An optional `int | None` field. -/
def asOptInt : Option Json → Option (Option Int)
  | none => some none
  | some .null => some none
  | some (.num n) => some (some n)
  | some _ => none

/-- An optional `dict[str, Any] | None` field. -/
def asOptObj : Option Json → Option (Option (List (String × Json)))
  | none => some none
  | some .null => some none
  | some (.obj kvs) => some (some kvs)
  | some _ => none

/-- An optional `list[dict[str, Any]] | None` field. -/
def asOptObjList : Option Json → Option (Option (List (List (String × Json))))
  | none => some none
  | some .null => some none
  | some (.arr elems) =>
    (elems.mapM (fun j =>
      match j with
      | Json.obj kvs => some kvs
      | _ => (none : Option (List (String × Json))))).map some
  | some _ => none

/-- An optional `datetime | None` field; the timestamp text itself is kept
unvalidated (see the section comment). -/
def asOptDatetime : Option Json → Option (Option String)
  | none => some none
  | some .null => some none
  | some (.str s) => some (some s)
  | some (.num n) => some (some (toString n))
  | some _ => none

/-- Validation of a `LinearUser` value: a dict with required string fields
`id`, `name` and `email`. -/
def parseUser : Json → Option LinearUser
  | .obj kvs => do
    let id ← (jsonGet kvs "id").bind asStr
    let name ← (jsonGet kvs "name").bind asStr
    let email ← (jsonGet kvs "email").bind asStr
    pure ⟨id, name, email⟩
  | _ => none

/-- An optional `LinearUser | None` field. -/
def asOptUser : Option Json → Option (Option LinearUser)
  | none => some none
  | some .null => some none
  | some j => (parseUser j).map some

/-- Validation of a `LinearIssueData` value from a decoded object.  The two
datetime fields read their alias key (`createdAt` / `updatedAt`) first and
fall back to the field name, per `populate_by_name = True`. -/
def parseIssueData (kvs : List (String × Json)) : Option LinearIssueData :=
  match (jsonGet kvs "id").bind asStr, (jsonGet kvs "identifier").bind asStr,
        (jsonGet kvs "title").bind asStr, asOptStr (jsonGet kvs "description"),
        asOptObj (jsonGet kvs "state"), asOptUser (jsonGet kvs "assignee"),
        asOptUser (jsonGet kvs "creator"), asOptInt (jsonGet kvs "priority"),
        asOptObjList (jsonGet kvs "labels"), asOptObj (jsonGet kvs "project"),
        asOptObj (jsonGet kvs "team"), asOptStr (jsonGet kvs "url"),
        asOptDatetime ((jsonGet kvs "createdAt").orElse (fun _ => jsonGet kvs "created_at")),
        asOptDatetime ((jsonGet kvs "updatedAt").orElse (fun _ => jsonGet kvs "updated_at")) with
  | some id, some identifier, some title, some description, some state, some assignee,
    some creator, some priority, some labels, some project, some team, some url,
    some created_at, some updated_at =>
    some ⟨id, identifier, title, description, state, assignee, creator, priority,
          labels, project, team, url, created_at, updated_at⟩
  | _, _, _, _, _, _, _, _, _, _, _, _, _, _ => none

/-- Validation of the `data` field: absent or `null` give `None`; an object
is tried as `LinearIssueData` first and kept as an opaque map when the typed
parse fails; any other value is a validation error. -/
def parseDataField : Option Json → Option (Option DataField)
  | none => some none
  | some .null => some none
  | some (.obj kvs) =>
    match parseIssueData kvs with
    | some d => some (some (.typed d))
    | none => some (some (.opaqueMap kvs))
  | some _ => none

/-- Validation of the `action` field of the request (absent gives the
default `None`). -/
def parseActionField : Option Json → Option (Option LinearAction)
  | none => some none
  | some j => parseActionVal j

/-- Validation of the `type` field of the request (absent gives the default
`None`). -/
def parseTypeField : Option Json → Option (Option LinearWebhookType)
  | none => some none
  | some j => parseTypeVal j

/-- The outcome of `parse_payload`: a parsed request, or one of the ways the
source raises.  `malformedJSON` and `invalidSchema` are the two
`HTTPException(400)` paths; `pyTypeError` is the uncaught `TypeError` that
`LinearWebhookRequest(**data)` raises when the decoded body is not an
object. -/
inductive ParseResult where
  | ok (w : LinearWebhookRequest) : ParseResult
  | malformedJSON : ParseResult
  | invalidSchema : ParseResult
  | pyTypeError : ParseResult

/-- Validation of a decoded body as a `LinearWebhookRequest`. -/
def webhookFromJson : Json → ParseResult
  | .obj kvs =>
    match parseActionField (jsonGet kvs "action"), parseTypeField (jsonGet kvs "type"),
          parseDataField (jsonGet kvs "data") with
    | some a, some t, some d => .ok { action := a, type := t, data := d }
    | _, _, _ => .invalidSchema
  | _ => .pyTypeError

/-- Embeds `LinearWebhookHandler.parse_payload`.  The argument is the result
of `json.loads` on the raw body: `none` when the bytes are not valid JSON
(the `json.JSONDecodeError` path), otherwise the decoded value. -/
def parse_payload : Option Json → ParseResult
  | none => .malformedJSON
  | some j => webhookFromJson j

end Handler

/-! ## The Kilo client and agent router of `src/kilo/client.py` -/

namespace Kilo

open Py Linear

/-! ### Branch-name generation (`AgentRouter._generate_branch_name`) -/

/-- The ASCII portion of the regex word class `\w`. -/
def pyIsWordChar (c : Char) : Bool := c.isAlphanum || c == '_'

/-- Membership in the regex class `[\w\s-]`; `re.sub` removes the
complement. -/
def keepSlugChar (c : Char) : Bool := pyIsWordChar c || pyIsSpaceChar c || c == '-'

/-- Membership in the regex class `[-\s]`. -/
def isHyphSpace (c : Char) : Bool := c == '-' || pyIsSpaceChar c

/-- Embeds `re.sub(r'[-\s]+', '-', s)`: each maximal run of hyphens and
whitespace becomes a single hyphen.  The flag records whether the previous
character belonged to the current run. -/
def collapseAux : Bool → List Char → List Char
  | _, [] => []
  | inRun, c :: cs =>
    if isHyphSpace c then
      if inRun then collapseAux true cs else '-' :: collapseAux true cs
    else c :: collapseAux false cs

/-- No two adjacent characters of the list are both in the `[-\s]` class;
the regex collapse leaves such lists unchanged. -/
def noHSpair : List Char → Bool
  | c :: d :: rest => !(isHyphSpace c && isHyphSpace d) && noHSpair (d :: rest)
  | _ => true

/-- Drop the trailing characters satisfying `p`. -/
def dropTrailing (p : Char → Bool) (l : List Char) : List Char :=
  (l.reverse.dropWhile p).reverse

/-- Embeds `s.strip('-')`. -/
def stripHyphens (l : List Char) : List Char :=
  dropTrailing (fun c => c == '-') (l.dropWhile (fun c => c == '-'))

/-- The character-level slug pipeline of `_generate_branch_name`: lowercase,
strip the characters outside `[\w\s-]`, collapse `[-\s]+` runs to single
hyphens, strip leading and trailing hyphens, truncate to 30 characters. -/
def slugChars (l : List Char) : List Char :=
  (stripHyphens (collapseAux false ((l.map Char.toLower).filter keepSlugChar))).take 30

/-- The title-slugification of `_generate_branch_name` as a string
transform. -/
def pySlug (s : String) : String := ⟨slugChars s.data⟩

/-- Embeds `AgentRouter._generate_branch_name`. -/
def generate_branch_name (issue_data : IssueSummary) : String :=
  "linear/" ++ pyLower (issue_data.identifier.getD "UNKNOWN") ++ "-"
    ++ pySlug (issue_data.title.getD "")

/-! ### Task prompts (`AgentRouter._build_task_prompt`) -/

/-- Embeds `AgentRouter._build_task_prompt`: the fixed-order prompt parts
joined by blank lines, with the description and URL parts present only when
truthy. -/
def build_task_prompt (issue_data : IssueSummary) : String :=
  let title := issue_data.title.getD ""
  let description := issue_data.description.getD ""
  let identifier := issue_data.identifier.getD ""
  let url := issue_data.url.getD ""
  let parts :=
    ["Task from Linear: " ++ identifier, "Title: " ++ title]
      ++ (if description ≠ "" then ["Description:\n" ++ description] else [])
      ++ (if url ≠ "" then ["Linear URL: " ++ url] else [])
      ++ ["\nPlease analyze this task and implement the necessary changes."]
  String.intercalate "\n\n" parts

/-! ### Session creation (`KiloCloudClient.create_session`) -/

/-- One 32-bit value as exactly eight lowercase hex digits, embedding
`format(v, '08x')` for the masked hash values of the local-session path
(which are always below `2 ^ 32`). -/
def hex8 (n : Nat) : String :=
  ⟨[Crypto.hexDigit (n / 16 ^ 7 % 16), Crypto.hexDigit (n / 16 ^ 6 % 16),
    Crypto.hexDigit (n / 16 ^ 5 % 16), Crypto.hexDigit (n / 16 ^ 4 % 16),
    Crypto.hexDigit (n / 16 ^ 3 % 16), Crypto.hexDigit (n / 16 ^ 2 % 16),
    Crypto.hexDigit (n / 16 % 16), Crypto.hexDigit (n % 16)]⟩

/-- Embeds `hash(task) & 0xFFFFFFFF`: Python integers are two's complement
under `&`, so masking is reduction modulo `2 ^ 32`. -/
def maskHash (h : Int) : Nat := (h % (2 ^ 32 : Int)).toNat

/-- The id of a fabricated local pseudo-session,
`f"local-{hash(task) & 0xFFFFFFFF:08x}"`.  `pyHash` is the process's string
hash function (`hash()` is seed-randomized per process but fixed within
one). -/
def localSessionId (pyHash : String → Int) (task : String) : String :=
  "local-" ++ hex8 (maskHash (pyHash task))

/-- The session dict returned by `create_session`.  The local path carries a
`branch` key and no `url`; the cloud path carries a `url` key and no
`branch`; absent keys are `none`. -/
structure SessionInfo where
  session_id : Option String
  status : String
  mode : String
  branch : Option String := none
  url : Option String := none
deriving DecidableEq

/-- The JSON body POSTed to `/api/v1/sessions`. -/
structure SessionRequest where
  repository : String
  prompt : String
  agent : String
  auto : Bool
deriving DecidableEq

/-- The collaborator's answer to the POST: a decoded response carrying the
optional `id` and `status` fields, or a raised error (`HTTPStatusError` or
any other exception — both are re-raised by the source). -/
inductive RemoteOutcome where
  | ok (id : Option String) (status : Option String) : RemoteOutcome
  | fail (err : String) : RemoteOutcome

/-- Rendering of an optional string inside an f-string (`None` when
absent). -/
def renderOpt : Option String → String
  | none => "None"
  | some s => s

/-- Embeds the branch/PR prompt enhancement built inside `create_session`
(`enhanced_task`).  The branch sentence is appended only for a truthy
`branch_name`. -/
def enhance_task (task : String) (branch_name : Option String) (base_branch : String) : String :=
  (if pyTruthy branch_name then
    task ++ "\n\nCreate a new branch named '" ++ branch_name.getD "" ++ "' for this work."
  else task)
    ++ "\n\nWhen complete, create a pull request targeting the '" ++ base_branch ++ "' branch."

/-- Embeds `KiloCloudClient.create_session`.  `enabled` and `api_key` model
`self.enabled` and `self.api_key`; `remote` is the collaborator behind the
POST; `pyHash` the process hash function.  The first component is the
returned session dict or the re-raised error; the second is the request
actually transmitted (`none` when no network call happened).  The source
builds `enhanced_task` but POSTs the original `task` as the prompt. -/
def create_session (enabled : Bool) (api_key : Option String)
    (remote : SessionRequest → RemoteOutcome) (pyHash : String → Int) (base_url : String)
    (repo_url task agent_id : String) (branch_name : Option String) (base_branch : String) :
    Except String SessionInfo × Option SessionRequest :=
  if !enabled || !pyTruthy api_key then
    (.ok { session_id := some (localSessionId pyHash task), status := "queued",
           mode := "local", branch := branch_name }, none)
  else
    let _enhanced_task := enhance_task task branch_name base_branch
    let req : SessionRequest :=
      { repository := repo_url, prompt := task, agent := agent_id, auto := true }
    match remote req with
    | .ok id status =>
      (.ok { session_id := id, status := status.getD "created", mode := "cloud",
             url := some (base_url ++ "/sessions/" ++ renderOpt id) }, some req)
    | .fail e => (.error e, some req)

/-- The answer to a status query: the canned local-mode dict (with its
`session_id`, `status` and `mode` keys), or the decoded body of the
collaborator's response. -/
inductive StatusResult where
  | info (session_id : String) (status : String) (mode : String) : StatusResult
  | remote (body : Json) : StatusResult

/-- Embeds `KiloCloudClient.get_session_status`.  `remoteGet` is the
collaborator behind the GET; the second component records whether a network
call happened. -/
def get_session_status (enabled : Bool) (remoteGet : String → Except String Json)
    (session_id : String) : Except String StatusResult × Bool :=
  if !enabled || pyStartsWith session_id "local-" then
    (.ok (.info session_id "pending" "local"), false)
  else
    ((remoteGet session_id).map .remote, true)

/-! ### The agent router state (`AgentRouter`)

The session table `self.active_sessions` maps session ids to per-session
dicts.  Python dicts are objects on a heap, so the model separates the
table (key to address) from the heap of entry objects; `dict.copy()`
produces a fresh table holding the same addresses. -/

/-- One tracked session entry, the dict literal built in `submit_task`. -/
structure SessionEntry where
  agent_id : String
  issue : IssueSummary
  branch : String
  base_branch : String
  repo : String
  created_at : String
deriving DecidableEq

/-- The router's mutable state: the entry heap and the session table.  Keys
are the `session_id` values, which can be `None` for a cloud response
without an `id`. -/
structure RouterState where
  heap : List SessionEntry
  active_sessions : List (Option String × Nat)
deriving DecidableEq

/-- Assignment `d[k] = v` on a Python dict: overwrite the existing key in
place, else append. -/
def dictSet (m : List (Option String × Nat)) (k : Option String) (v : Nat) :
    List (Option String × Nat) :=
  if m.any (fun p => p.1 == k) then
    m.map (fun p => if p.1 == k then (k, v) else p)
  else m ++ [(k, v)]

/-- Lookup in the session table. -/
def tableGet (m : List (Option String × Nat)) (k : Option String) : Option Nat :=
  (m.find? (fun p => p.1 == k)).map (fun p => p.2)

/-- The result dict of `submit_task`. -/
structure SubmitResult where
  success : Bool
  session : Option SessionInfo := none
  error : Option String := none
  agent_id : String
  issue : IssueSummary
deriving DecidableEq

/-- The attribute names the `Settings` class of `src/config.py` declares:
its fourteen fields.  Notably it declares neither `default_base_branch` nor
`default_repo_url`, the two attributes `AgentRouter.submit_task` and
`AgentRouter._get_repo_from_issue` read from the `settings` singleton. -/
def settingsFields : List String :=
  ["app_name", "debug", "host", "port", "linear_api_key", "linear_webhook_secret",
   "kilo_api_key", "kilo_cloud_enabled", "kilo_cloud_url", "agent_mapping",
   "webhook_bearer_token", "webhook_auth_required", "admin_api_key",
   "telegram_allowed_users"]

/-- Attribute access on the `settings` singleton.  A pydantic-settings model
raises `AttributeError` for any attribute it does not declare; `value` gives
the (string-rendered) value of a declared attribute — the claims depend only
on which names are declared, never on a declared attribute's value. -/
def settingsGetattr (value : String → String) (name : String) : Except String String :=
  if settingsFields.contains name then .ok (value name)
  else .error ("AttributeError: " ++ name)

/-- Embeds `AgentRouter._get_repo_from_issue`: reads
`settings.default_repo_url`, an attribute `Settings` does not declare. -/
def get_repo_from_issue (value : String → String) (_issue_data : IssueSummary) :
    Except String String :=
  settingsGetattr value "default_repo_url"

/-- Embeds `AgentRouter.submit_task`.  The collaborator parameters of
`create_session` and the settings valuation are explicit arguments; `` `or` ``
on `repo_url` uses Python truthiness, so a falsy `repo_url` evaluates
`_get_repo_from_issue` (which reads `settings.default_repo_url`), and then
`settings.default_base_branch` is read unconditionally — both reads sit
before the `try` block, so their `AttributeError` propagates out of the
call (the first component is `.error`).  Only a raised `create_session`
(inside the `try`) is caught and returned as the `success := false` dict;
on success the session is recorded (a fresh entry object, its address keyed
by the session id). -/
def submit_task (st : RouterState) (enabled : Bool) (api_key : Option String)
    (remote : SessionRequest → RemoteOutcome) (pyHash : String → Int) (base_url : String)
    (settingsValue : String → String)
    (agent_id : String) (issue_data : IssueSummary) (repo_url : Option String) :
    Except String SubmitResult × RouterState :=
  let task_prompt := build_task_prompt issue_data
  match (if pyTruthy repo_url then Except.ok (repo_url.getD "")
         else get_repo_from_issue settingsValue issue_data) with
  | .error e => (.error e, st)
  | .ok repo =>
    let branch_name := generate_branch_name issue_data
    match settingsGetattr settingsValue "default_base_branch" with
    | .error e => (.error e, st)
    | .ok base_branch =>
      match create_session enabled api_key remote pyHash base_url repo task_prompt agent_id
          (some branch_name) base_branch with
      | (.ok session, _) =>
        let entry : SessionEntry :=
          { agent_id := agent_id, issue := issue_data, branch := branch_name,
            base_branch := base_branch, repo := repo, created_at := "now" }
        (.ok { success := true, session := some session, agent_id := agent_id,
               issue := issue_data },
         { heap := st.heap ++ [entry],
           active_sessions := dictSet st.active_sessions session.session_id st.heap.length })
      | (.error e, _) =>
        (.ok { success := false, error := some e, agent_id := agent_id,
               issue := issue_data }, st)

/-- Embeds `AgentRouter.get_active_sessions`: `self.active_sessions.copy()`,
a fresh top-level dict holding the same key-to-entry-address pairs. -/
def get_active_sessions (st : RouterState) : List (Option String × Nat) :=
  st.active_sessions

/-- In-place mutation of the entry object at address `a` — what a caller does
when it writes into one of the per-session dicts reachable from a returned
copy. -/
def heapWrite (st : RouterState) (a : Nat) (e : SessionEntry) : RouterState :=
  { st with heap := st.heap.set a e }

/-- The session table as the caller observes it through the tracker: each
key with the entry object its address holds. -/
def observeSessions (st : RouterState) : List (Option String × Option SessionEntry) :=
  st.active_sessions.map (fun p => (p.1, st.heap.get? p.2))

end Kilo

/-! ## Theorems

First the supporting lemmas, then one theorem per specification claim
(with its witness or counterexample where required).
-/

namespace Crypto

theorem toBytesBE_length (n x : Nat) : (toBytesBE n x).length = n := by
  induction n generalizing x with
  | zero => rfl
  | succ n ih => simp [toBytesBE, ih]

theorem hash8Bytes_length (st : Hash8) : (hash8Bytes st).length = 32 := by
  simp [hash8Bytes, toBytesBE_length]

theorem sha256Bytes_length (msg : List Nat) : (sha256Bytes msg).length = 32 := by
  simp [sha256Bytes, hash8Bytes_length]

theorem hmacSha256Bytes_length (key msg : List Nat) :
    (hmacSha256Bytes key msg).length = 32 := by
  simp [hmacSha256Bytes, sha256Bytes_length]

theorem bytesToHexStr_ne_empty (bs : List Nat) (h : bs ≠ []) : bytesToHexStr bs ≠ "" := by
  cases bs with
  | nil => exact absurd rfl h
  | cons b rest => simp [bytesToHexStr, byteToHex, String.ext_iff]

theorem hmacSha256Hex_ne_empty (key msg : List Nat) : hmacSha256Hex key msg ≠ "" := by
  apply bytesToHexStr_ne_empty
  intro h
  have := hmacSha256Bytes_length key msg
  rw [h] at this
  exact absurd this (by decide)

/-- FIPS 180-4 test vector: the SHA-256 digest of `"abc"`. -/
theorem sha256Hex_abc_vector :
    sha256Hex [0x61, 0x62, 0x63] =
      "ba7816bf8f01cfea414140de5dae2223b00361a396177a9cb410ff61f20015ad" := by decide

/-- RFC 4231 test case 2: HMAC-SHA256 with key `"Jefe"` and data
`"what do ya want for nothing?"`. -/
theorem hmacSha256Hex_rfc4231_vector :
    hmacSha256Hex [0x4a, 0x65, 0x66, 0x65]
      [0x77, 0x68, 0x61, 0x74, 0x20, 0x64, 0x6f, 0x20, 0x79, 0x61, 0x20, 0x77, 0x61,
       0x6e, 0x74, 0x20, 0x66, 0x6f, 0x72, 0x20, 0x6e, 0x6f, 0x74, 0x68, 0x69, 0x6e,
       0x67, 0x3f] =
      "5bdcc146bf60754e6a042426089575c75a003f089d2739839dec58b964ec3843" := by decide

end Crypto

/-- C1: for every secret and raw body, `verify_signature` accepts exactly the
lowercase hex HMAC-SHA256 of the body under the secret when a non-empty
secret is configured — any other header value, and a missing header, are
rejected — and verification is skipped (the call returns true) whenever the
configured secret is unset or empty. -/
theorem c1_verify_signature_correct :
    (∀ (sec : String) (body : List Nat), sec ≠ "" →
      Handler.verify_signature (some sec)
        (some (Crypto.hmacSha256Hex (Py.utf8Bytes sec) body)) body = true)
  ∧ (∀ (sec sig : String) (body : List Nat), sec ≠ "" →
      sig ≠ Crypto.hmacSha256Hex (Py.utf8Bytes sec) body →
      Handler.verify_signature (some sec) (some sig) body = false)
  ∧ (∀ (sec : String) (body : List Nat), sec ≠ "" →
      Handler.verify_signature (some sec) none body = false)
  ∧ (∀ (sig : Option String) (body : List Nat),
      Handler.verify_signature none sig body = true
      ∧ Handler.verify_signature (some "") sig body = true) := by
  refine ⟨?_, ?_, ?_, ?_⟩
  · intro sec body hsec
    simp only [Handler.verify_signature, if_neg hsec]
    rw [if_neg (Crypto.hmacSha256Hex_ne_empty _ _)]
    simp
  · intro sec sig body hsec hsig
    simp only [Handler.verify_signature, if_neg hsec]
    by_cases hempty : sig = ""
    · rw [if_pos hempty]
    · rw [if_neg hempty]
      simp [hsig]
  · intro sec body hsec
    simp [Handler.verify_signature, if_neg hsec]
  · intro sig body
    exact ⟨rfl, by simp [Handler.verify_signature]⟩

/-- Witness for C1 at concrete inputs: secret `"k"`, body `[0x62]`. -/
theorem c1_verify_signature_correct_witness :
    Handler.verify_signature (some "k")
      (some (Crypto.hmacSha256Hex (Py.utf8Bytes "k") [0x62])) [0x62] = true
  ∧ Handler.verify_signature (some "k") (some "deadbeef") [0x62] = false
  ∧ Handler.verify_signature (some "k") none [0x62] = false
  ∧ Handler.verify_signature none (some "x") [] = true :=
  ⟨c1_verify_signature_correct.1 "k" [0x62] (by decide),
   c1_verify_signature_correct.2.1 "k" "deadbeef" [0x62] (by decide) (by decide),
   c1_verify_signature_correct.2.2.1 "k" [0x62] (by decide),
   (c1_verify_signature_correct.2.2.2 (some "x") []).1⟩

namespace Handler

/-- The first component of `should_process` coincides with
`is_issue_assigned`: the classifier accepts exactly the assigned-issue
events. -/
theorem should_process_fst (w : Linear.LinearWebhookRequest) :
    (should_process w).1 = Linear.is_issue_assigned w := by
  simp only [should_process]
  by_cases h1 : (w.type != some Linear.LinearWebhookType.Issue) = true
  · rw [if_pos h1]
    simp only [Linear.is_issue_assigned, if_pos h1]
  · rw [if_neg h1]
    by_cases h2 : (!(w.action == some Linear.LinearAction.create
        || w.action == some Linear.LinearAction.update)) = true
    · rw [if_pos h2]
      simp only [Linear.is_issue_assigned, if_neg h1, if_pos h2]
    · rw [if_neg h2]
      by_cases h3 : Linear.is_issue_assigned w = true
      · rw [if_neg (by simp [h3]), h3]
      · rw [if_pos (by simp at h3; simp [h3])]
        simp at h3
        simp [h3]

/-- Characterization of `is_issue_assigned`: true exactly for a typed Issue
create/update event whose issue carries a non-null assignee (of any email,
including the empty string). -/
theorem is_issue_assigned_iff (w : Linear.LinearWebhookRequest) :
    Linear.is_issue_assigned w = true ↔
      (w.type = some Linear.LinearWebhookType.Issue
        ∧ (w.action = some Linear.LinearAction.create
            ∨ w.action = some Linear.LinearAction.update)
        ∧ ∃ d, w.data = some (Linear.DataField.typed d) ∧ d.assignee ≠ none) := by
  obtain ⟨a, t, d⟩ := w
  simp only [Linear.is_issue_assigned]
  rcases d with _ | df
  · simp
  · rcases df with issue | kvs
    · by_cases h1 : t = some Linear.LinearWebhookType.Issue
      · by_cases h2 : a = some Linear.LinearAction.create ∨ a = some Linear.LinearAction.update
        · rcases h2 with h2 | h2 <;>
            simp [h1, h2, Option.isSome_iff_ne_none]
        · push_neg at h2
          simp [h1, h2.1, h2.2]
      · simp [h1]
    · simp

end Handler

/-- C2 counterexample: an Issue create event whose assignee has the empty
email.  The claim requires `should_process` to reject it (`(false, _)` with
a not-assigned reason), but the source only tests `assignee is not None`
and accepts it. -/
theorem c2_counterexample :
    Handler.should_process
      { action := some Linear.LinearAction.create,
        type := some Linear.LinearWebhookType.Issue,
        data := some (Linear.DataField.typed
          { id := "issue-1", identifier := "TEAM-1", title := "T",
            assignee := some ⟨"user-1", "Jane", ""⟩ }) }
      = (true, "Processing assigned issue") := rfl

/-- C2 amended: `should_process` returns `(true, _)` iff the event is a
typed Issue create/update whose issue carries a non-null assignee — the
assignee's email is not inspected, so it may be empty — and the three
conditions are checked in order, the reason naming the first failing one. -/
theorem c2_should_process_amended (w : Linear.LinearWebhookRequest) :
    ((Handler.should_process w).1 = true ↔
      (w.type = some Linear.LinearWebhookType.Issue
        ∧ (w.action = some Linear.LinearAction.create
            ∨ w.action = some Linear.LinearAction.update)
        ∧ ∃ d, w.data = some (Linear.DataField.typed d) ∧ d.assignee ≠ none))
    ∧ (w.type ≠ some Linear.LinearWebhookType.Issue →
        Handler.should_process w =
          (false, "Ignoring non-issue webhook: " ++ Handler.renderTypeField w.type))
    ∧ (w.type = some Linear.LinearWebhookType.Issue →
        w.action ≠ some Linear.LinearAction.create →
        w.action ≠ some Linear.LinearAction.update →
        Handler.should_process w =
          (false, "Ignoring action: " ++ Handler.renderActionField w.action))
    ∧ (w.type = some Linear.LinearWebhookType.Issue →
        (w.action = some Linear.LinearAction.create
          ∨ w.action = some Linear.LinearAction.update) →
        Linear.is_issue_assigned w = false →
        Handler.should_process w = (false, "Issue not assigned to anyone"))
    ∧ (Linear.is_issue_assigned w = true →
        Handler.should_process w = (true, "Processing assigned issue")) := by
  refine ⟨?_, ?_, ?_, ?_, ?_⟩
  · rw [Handler.should_process_fst]
    exact Handler.is_issue_assigned_iff w
  · intro h
    simp only [Handler.should_process]
    rw [if_pos (by simp [h])]
  · intro h1 h2 h3
    simp only [Handler.should_process]
    rw [if_neg (by simp [h1]), if_pos (by simp [h2, h3])]
  · intro h1 h2 h3
    simp only [Handler.should_process]
    rw [if_neg (by simp [h1]), if_neg ?ha, if_pos (by simp [h3])]
    case ha => rcases h2 with h2 | h2 <;> simp [h2]
  · intro h
    have hc := (Handler.is_issue_assigned_iff w).mp h
    simp only [Handler.should_process]
    rw [if_neg (by simp [hc.1]), if_neg ?hb, if_neg (by simp [h])]
    case hb => rcases hc.2.1 with h2 | h2 <;> simp [h2]

/-- Witness for C2 at a concrete input: an Issue event with a `delete`
action takes the ignored-action branch. -/
theorem c2_should_process_amended_witness :
    Handler.should_process
      { action := some Linear.LinearAction.delete,
        type := some Linear.LinearWebhookType.Issue, data := none }
      = (false, "Ignoring action: delete") := by
  have h := (c2_should_process_amended
    { action := some Linear.LinearAction.delete,
      type := some Linear.LinearWebhookType.Issue, data := none }).2.2.1
    rfl (by decide) (by decide)
  rw [h]
  rfl

/-- C3: `get_agent_for_assignee` resolves with the three-tier precedence —
exact email key first, then the `"@" + domain` key (domain the substring
after the last `"@"`), then the literal `"default"` key, else null — it
coincides with the resolution procedure as the specification words it, and
it satisfies the four examples from the specification. -/
theorem c3_get_agent_for_assignee_correct :
    (∀ (m : List (String × String)) (email : String),
      (∀ a, Py.dictGet m email = some a →
        Handler.get_agent_for_assignee m email = some a)
      ∧ (Py.dictGet m email = none →
          ∀ a, Py.dictGet m ("@" ++ Py.afterLastAt email) = some a →
            Handler.get_agent_for_assignee m email = some a)
      ∧ (Py.dictGet m email = none →
          Py.dictGet m ("@" ++ Py.afterLastAt email) = none →
            Handler.get_agent_for_assignee m email = Py.dictGet m "default"))
  ∧ (∀ (m : List (String × String)) (email : String),
      Handler.get_agent_for_assignee m email = Handler.resolveAgentSpec m email)
  ∧ Handler.get_agent_for_assignee
      [("john@example.com", "A"), ("default", "B")] "john@example.com" = some "A"
  ∧ Handler.get_agent_for_assignee
      [("@example.com", "D"), ("default", "B")] "x@example.com" = some "D"
  ∧ Handler.get_agent_for_assignee [("default", "B")] "x@nomatch.com" = some "B"
  ∧ Handler.get_agent_for_assignee [] "x@nomatch.com" = none := by
  refine ⟨?_, fun m email => rfl, by decide, by decide, by decide, by decide⟩
  intro m email
  refine ⟨?_, ?_, ?_⟩
  · intro a ha
    simp [Handler.get_agent_for_assignee, ha]
  · intro h a ha
    simp [Handler.get_agent_for_assignee, h, ha]
  · intro h1 h2
    simp [Handler.get_agent_for_assignee, h1, h2]

/-- Witness for C3 at a concrete input: a direct email mapping resolves by
the first tier. -/
theorem c3_get_agent_for_assignee_correct_witness :
    Handler.get_agent_for_assignee [("a@b.c", "X")] "a@b.c" = some "X" :=
  ((c3_get_agent_for_assignee_correct.1 [("a@b.c", "X")] "a@b.c").1 "X" (by decide))

namespace Py

/-- A whitespace-free tail produces exactly one word (together with the
accumulated current word, when non-empty). -/
theorem pySplitWsAux_no_space (l : List Char)
    (hl : ∀ c ∈ l, pyIsSpaceChar c = false) (cur : List Char) :
    pySplitWsAux cur l =
      if cur.isEmpty && l.isEmpty then [] else [⟨cur.reverse ++ l⟩] := by
  induction l generalizing cur with
  | nil =>
    simp only [pySplitWsAux, List.isEmpty_nil, Bool.and_true, List.append_nil]
  | cons c cs ih =>
    have hc := hl c (List.mem_cons_self c cs)
    simp only [pySplitWsAux, hc]
    rw [ih (fun x hx => hl x (List.mem_cons_of_mem c hx)) (c :: cur)]
    simp

/-- Splitting `"Bearer " + t` for a non-empty whitespace-free token gives
exactly the scheme and the token. -/
theorem pySplitWs_bearer_header (t : String) (ht : t ≠ "")
    (htc : ∀ c ∈ t.data, pyIsSpaceChar c = false) :
    pySplitWs ("Bearer " ++ t) = ["Bearer", t] := by
  show pySplitWsAux [] ("Bearer " ++ t).data = ["Bearer", t]
  have hd : ("Bearer " ++ t).data = 'B' :: 'e' :: 'a' :: 'r' :: 'e' :: 'r' :: ' ' :: t.data := rfl
  rw [hd]
  show "Bearer" :: pySplitWsAux [] t.data = ["Bearer", t]
  rw [pySplitWsAux_no_space t.data htc []]
  have hne : t.data.isEmpty = false := by
    cases hq : t.data with
    | nil => exact absurd (String.ext hq) ht
    | cons x xs => rfl
  simp [hne]

/-- Splitting `"bearer " + t` for a non-empty whitespace-free token. -/
theorem pySplitWs_bearer_header_lower (t : String) (ht : t ≠ "")
    (htc : ∀ c ∈ t.data, pyIsSpaceChar c = false) :
    pySplitWs ("bearer " ++ t) = ["bearer", t] := by
  show pySplitWsAux [] ("bearer " ++ t).data = ["bearer", t]
  have hd : ("bearer " ++ t).data = 'b' :: 'e' :: 'a' :: 'r' :: 'e' :: 'r' :: ' ' :: t.data := rfl
  rw [hd]
  show "bearer" :: pySplitWsAux [] t.data = ["bearer", t]
  rw [pySplitWsAux_no_space t.data htc []]
  have hne : t.data.isEmpty = false := by
    cases hq : t.data with
    | nil => exact absurd (String.ext hq) ht
    | cons x xs => rfl
  simp [hne]

end Py

namespace Handler

/-- With a non-empty configured token, a present header verifies exactly
when it splits into a case-insensitive `"bearer"` scheme and the exact
token. -/
theorem verify_bearer_token_iff (t : String) (ht : t ≠ "") (h : String) :
    verify_bearer_token (some t) (some h) = true ↔
      ∃ p0 p1, Py.pySplitWs h = [p0, p1] ∧ Py.pyLower p0 = "bearer" ∧ p1 = t := by
  simp only [verify_bearer_token, if_neg ht]
  by_cases hh : h = ""
  · subst hh
    have hsp : Py.pySplitWs "" = [] := rfl
    simp [hsp]
  · rw [if_neg hh]
    rcases hs : Py.pySplitWs h with _ | ⟨p0, _ | ⟨p1, _ | ⟨p2, rest⟩⟩⟩
    · simp [hs]
    · simp [hs]
    · simp only [hs]
      by_cases hb : Py.pyLower p0 = "bearer"
      · simp only [hb, beq_self_eq_true, if_pos]
        constructor
        · intro h1
          exact ⟨p0, t, by simpa using h1, hb, rfl⟩
        · rintro ⟨q0, q1, heq, hbq, rfl⟩
          obtain ⟨rfl, rfl⟩ : p0 = q0 ∧ p1 = q1 := by simpa using heq
          simp
      · rw [if_neg (by simpa using hb)]
        constructor
        · intro h1
          exact absurd h1 (by simp)
        · rintro ⟨q0, q1, heq, hbq, rfl⟩
          obtain ⟨rfl, rfl⟩ : p0 = q0 ∧ p1 = q1 := by simpa using heq
          exact absurd hbq hb
    · simp [hs]

end Handler

/-- C4 counterexample: for the configured token `"a b"` (which contains a
space) the header `"Bearer " + token` splits into three parts and is
rejected, though the claim requires every configured token to verify
against its own canonical header. -/
theorem c4_counterexample :
    Handler.verify_bearer_token (some "a b") (some ("Bearer " ++ "a b")) = false := by decide

/-- C4 amended: for every non-empty configured token, a header verifies iff
it splits on whitespace into exactly two parts, a case-insensitively
`"bearer"` scheme and the exact token, and a missing header is rejected; in
particular `"Bearer " + t` and `"bearer " + t` verify for every non-empty
whitespace-free token `t` (an empty configured token disables verification
entirely, and a token containing whitespace can never verify, since split
parts are whitespace-free); with no token configured, or an empty one,
every header is accepted. -/
theorem c4_verify_bearer_token_amended :
    (∀ t : String, t ≠ "" →
      (∀ h : String, Handler.verify_bearer_token (some t) (some h) = true ↔
        ∃ p0 p1, Py.pySplitWs h = [p0, p1] ∧ Py.pyLower p0 = "bearer" ∧ p1 = t)
      ∧ Handler.verify_bearer_token (some t) none = false)
  ∧ (∀ t : String, t ≠ "" → (∀ c ∈ t.data, Py.pyIsSpaceChar c = false) →
      Handler.verify_bearer_token (some t) (some ("Bearer " ++ t)) = true
      ∧ Handler.verify_bearer_token (some t) (some ("bearer " ++ t)) = true)
  ∧ (∀ h : Option String, Handler.verify_bearer_token none h = true
      ∧ Handler.verify_bearer_token (some "") h = true) := by
  refine ⟨fun t ht => ⟨Handler.verify_bearer_token_iff t ht,
            by simp [Handler.verify_bearer_token, if_neg ht]⟩,
          fun t ht htc => ?_,
          fun h => ⟨rfl, by simp [Handler.verify_bearer_token]⟩⟩
  constructor
  · rw [Handler.verify_bearer_token_iff t ht]
    exact ⟨"Bearer", t, Py.pySplitWs_bearer_header t ht htc, rfl, rfl⟩
  · rw [Handler.verify_bearer_token_iff t ht]
    exact ⟨"bearer", t, Py.pySplitWs_bearer_header_lower t ht htc, rfl, rfl⟩

/-- Witness for C4 at a concrete input: the token `"tok"` with its canonical
header, and with a missing header. -/
theorem c4_verify_bearer_token_amended_witness :
    Handler.verify_bearer_token (some "tok") (some ("Bearer " ++ "tok")) = true
    ∧ Handler.verify_bearer_token (some "tok") none = false :=
  ⟨(c4_verify_bearer_token_amended.2.1 "tok" (by decide) (by decide)).1,
   (c4_verify_bearer_token_amended.1 "tok" (by decide)).2⟩

namespace Handler

/-- An entity-type string outside the four enum members fails validation. -/
theorem parseTypeVal_unknown (s : String) (h1 : s ≠ "Issue") (h2 : s ≠ "Comment")
    (h3 : s ≠ "Project") (h4 : s ≠ "Cycle") : parseTypeVal (Json.str s) = none := by
  simp only [parseTypeVal]
  split <;> simp_all

/-- The data-field fallback is total on objects: an object payload never
fails validation, whatever the entity type (the typed issue parse is
attempted, and its failure falls back to the opaque map). -/
theorem parseDataField_obj_ne_none (m : List (String × Json)) :
    parseDataField (some (Json.obj m)) ≠ none := by
  simp only [parseDataField]
  cases parseIssueData m <;> simp

end Handler

/-- C5 counterexample: a syntactically valid JSON body with the unknown
future entityType `"Reaction"` raises `InvalidSchema`, though the claim
requires the parser never to raise on unknown entity types at the outer
level. -/
theorem c5_counterexample :
    Handler.parse_payload (some (Json.obj
      [("action", Json.str "create"), ("type", Json.str "Reaction"), ("data", Json.obj [])]))
      = Handler.ParseResult.invalidSchema := rfl

/-- C5 amended: non-JSON bytes raise `MalformedJSON`; a JSON object raises
`InvalidSchema` exactly when its `action` or `type` field holds a value
outside the respective enum (in particular any unknown future entityType
string) or its `data` field holds a non-null non-object; the typed issue
parse is attempted for every entity type and falls back to an opaque map on
any object (so a malformed issue payload never raises by itself); a valid
JSON body that is not an object raises an uncaught `TypeError` rather than
an HTTP 400. -/
theorem c5_parse_payload_amended :
    Handler.parse_payload none = Handler.ParseResult.malformedJSON
  ∧ (∀ kvs : List (String × Json),
      Handler.webhookFromJson (Json.obj kvs) = Handler.ParseResult.invalidSchema ↔
        (Handler.parseActionField (jsonGet kvs "action") = none
          ∨ Handler.parseTypeField (jsonGet kvs "type") = none
          ∨ Handler.parseDataField (jsonGet kvs "data") = none))
  ∧ (∀ (kvs : List (String × Json)) (s : String),
      jsonGet kvs "type" = some (Json.str s) →
      s ≠ "Issue" → s ≠ "Comment" → s ≠ "Project" → s ≠ "Cycle" →
      Handler.parse_payload (some (Json.obj kvs)) = Handler.ParseResult.invalidSchema)
  ∧ (∀ m : List (String × Json), Handler.parseDataField (some (Json.obj m)) ≠ none)
  ∧ (∀ j : Json, (∀ kvs, j ≠ Json.obj kvs) →
      Handler.parse_payload (some j) = Handler.ParseResult.pyTypeError) := by
  refine ⟨rfl, ?_, ?_, Handler.parseDataField_obj_ne_none, ?_⟩
  · intro kvs
    rcases ha : Handler.parseActionField (jsonGet kvs "action") with _ | a <;>
      rcases hb : Handler.parseTypeField (jsonGet kvs "type") with _ | b <;>
        rcases hc : Handler.parseDataField (jsonGet kvs "data") with _ | c <;>
          simp [Handler.webhookFromJson, ha, hb, hc]
  · intro kvs s hget h1 h2 h3 h4
    have ht : Handler.parseTypeField (jsonGet kvs "type") = none := by
      rw [hget]
      exact Handler.parseTypeVal_unknown s h1 h2 h3 h4
    show Handler.webhookFromJson (Json.obj kvs) = Handler.ParseResult.invalidSchema
    rcases ha : Handler.parseActionField (jsonGet kvs "action") with _ | a <;>
      rcases hc : Handler.parseDataField (jsonGet kvs "data") with _ | c <;>
        simp [Handler.webhookFromJson, ha, ht, hc]
  · intro j hj
    cases j with
    | obj kvs => exact absurd rfl (hj kvs)
    | null => rfl
    | bool b => rfl
    | num n => rfl
    | str s => rfl
    | arr elems => rfl

/-- Witness for C5 at concrete inputs: an unknown entityType raises
`InvalidSchema`; a JSON string body raises the uncaught `TypeError`. -/
theorem c5_parse_payload_amended_witness :
    Handler.parse_payload (some (Json.obj [("type", Json.str "Unknown")]))
      = Handler.ParseResult.invalidSchema
    ∧ Handler.parse_payload (some (Json.str "x")) = Handler.ParseResult.pyTypeError :=
  ⟨c5_parse_payload_amended.2.2.1 [("type", Json.str "Unknown")] "Unknown" rfl
      (by decide) (by decide) (by decide) (by decide),
   c5_parse_payload_amended.2.2.2.2 (Json.str "x") (fun kvs h => Json.noConfusion h)⟩
namespace Kilo

theorem char_toNat_ofNat_valid (m : Nat) (h : Nat.isValidChar m) :
    (Char.ofNat m).toNat = m := by
  rw [Char.ofNat, dif_pos h]
  rfl

theorem char_toLower_toLower (c : Char) : c.toLower.toLower = c.toLower := by
  by_cases h : c.toNat ≥ 65 ∧ c.toNat ≤ 90
  · have hval : Nat.isValidChar (c.toNat + 32) := Or.inl (by omega)
    have h1 : c.toLower = Char.ofNat (c.toNat + 32) := by
      simp only [Char.toLower, if_pos h]
    rw [h1]
    simp only [Char.toLower, char_toNat_ofNat_valid _ hval]
    rw [if_neg (by omega)]
  · simp only [Char.toLower, if_neg h]

theorem mem_collapseAux {c : Char} : ∀ (l : List Char) (b : Bool),
    c ∈ collapseAux b l → c = '-' ∨ (c ∈ l ∧ isHyphSpace c = false)
  | [], b, h => by simp [collapseAux] at h
  | c0 :: cs, b, h => by
    by_cases hc0 : isHyphSpace c0 = true
    · cases b with
      | true =>
        simp only [collapseAux, hc0, if_pos] at h
        rcases mem_collapseAux cs true h with h1 | ⟨h1, h2⟩
        · exact Or.inl h1
        · exact Or.inr ⟨List.mem_cons_of_mem c0 h1, h2⟩
      | false =>
        simp only [collapseAux, hc0, if_pos] at h
        rcases List.mem_cons.mp h with rfl | h1
        · exact Or.inl rfl
        · rcases mem_collapseAux cs true h1 with h2 | ⟨h2, h3⟩
          · exact Or.inl h2
          · exact Or.inr ⟨List.mem_cons_of_mem c0 h2, h3⟩
    · simp only [collapseAux, hc0] at h
      rw [if_neg (by simpa using hc0)] at h
      rcases List.mem_cons.mp h with rfl | h1
      · exact Or.inr ⟨List.mem_cons_self c cs, by simpa using hc0⟩
      · rcases mem_collapseAux cs false h1 with h2 | ⟨h2, h3⟩
        · exact Or.inl h2
        · exact Or.inr ⟨List.mem_cons_of_mem c0 h2, h3⟩

theorem head_collapseAux_true {c : Char} : ∀ (l : List Char),
    (collapseAux true l).head? = some c → isHyphSpace c = false
  | [], h => by simp [collapseAux] at h
  | c0 :: cs, h => by
    by_cases hc0 : isHyphSpace c0 = true
    · simp only [collapseAux, hc0, if_pos] at h
      exact head_collapseAux_true cs h
    · simp only [collapseAux, hc0] at h
      rw [if_neg (by simpa using hc0)] at h
      simp only [List.head?_cons, Option.some.injEq] at h
      subst h
      simpa using hc0

end Kilo

namespace Kilo

theorem noHSpair_tail {c : Char} {l : List Char} (h : noHSpair (c :: l) = true) :
    noHSpair l = true := by
  cases l with
  | nil => rfl
  | cons d ds =>
    simp only [noHSpair, Bool.and_eq_true] at h
    exact h.2

theorem noHSpair_collapseAux : ∀ (l : List Char) (b : Bool),
    noHSpair (collapseAux b l) = true
  | [], b => rfl
  | c0 :: cs, b => by
    by_cases hc0 : isHyphSpace c0 = true
    · cases b with
      | true =>
        simp only [collapseAux, hc0, if_pos]
        exact noHSpair_collapseAux cs true
      | false =>
        simp only [collapseAux, hc0, if_pos]
        have htail := noHSpair_collapseAux cs true
        cases hh : (collapseAux true cs).head? with
        | none =>
          have : collapseAux true cs = [] := by
            cases hq : collapseAux true cs with
            | nil => rfl
            | cons x xs => rw [hq] at hh; simp at hh
          rw [this]
          rfl
        | some d =>
          have hd := head_collapseAux_true cs hh
          cases hq : collapseAux true cs with
          | nil => rfl
          | cons x xs =>
            rw [hq] at hh htail
            simp only [List.head?_cons, Option.some.injEq] at hh
            subst hh
            simp only [noHSpair, Bool.and_eq_true]
            exact ⟨by simp [hd], htail⟩
    · simp only [collapseAux, hc0]
      rw [if_neg (by simpa using hc0)]
      have htail := noHSpair_collapseAux cs false
      cases hq : collapseAux false cs with
      | nil => rfl
      | cons x xs =>
        rw [hq] at htail
        simp only [noHSpair, Bool.and_eq_true]
        refine ⟨?_, htail⟩
        simp [show isHyphSpace c0 = false by simpa using hc0]

end Kilo

namespace Kilo

theorem collapseAux_true_eq_false {l : List Char}
    (h : ∀ d, l.head? = some d → isHyphSpace d = false) :
    collapseAux true l = collapseAux false l := by
  cases l with
  | nil => rfl
  | cons c cs =>
    have hc := h c rfl
    simp [collapseAux, hc]

theorem collapseAux_eq_self : ∀ l : List Char,
    (∀ c ∈ l, Py.pyIsSpaceChar c = false) → noHSpair l = true →
    collapseAux false l = l
  | [], _, _ => rfl
  | c :: cs, hsp, hpair => by
    have hcs : ∀ x ∈ cs, Py.pyIsSpaceChar x = false :=
      fun x hx => hsp x (List.mem_cons_of_mem c hx)
    have hpcs := noHSpair_tail hpair
    by_cases hc : isHyphSpace c = true
    · have hchyph : c = '-' := by
        have := hsp c (List.mem_cons_self c cs)
        simp only [isHyphSpace, this, Bool.or_false, beq_iff_eq] at hc
        exact hc
      simp only [collapseAux, hc, if_pos]
      have hhead : ∀ d, cs.head? = some d → isHyphSpace d = false := by
        intro d hd
        cases cs with
        | nil => simp at hd
        | cons x xs =>
          simp only [List.head?_cons, Option.some.injEq] at hd
          subst hd
          simp only [noHSpair, Bool.and_eq_true] at hpair
          have := hpair.1
          simp only [hc, Bool.true_and] at this
          simpa using this
      rw [collapseAux_true_eq_false hhead, collapseAux_eq_self cs hcs hpcs, hchyph]
      simp
    · simp only [collapseAux, hc]
      rw [if_neg (by simpa using hc), collapseAux_eq_self cs hcs hpcs]

theorem noHSpair_append_left : ∀ l r : List Char,
    noHSpair (l ++ r) = true → noHSpair l = true
  | [], _, _ => rfl
  | [c], _, _ => rfl
  | c :: d :: ds, r, h => by
    simp only [List.cons_append, noHSpair, Bool.and_eq_true] at h ⊢
    exact ⟨h.1, noHSpair_append_left (d :: ds) r (by simpa using h.2)⟩

theorem noHSpair_append_right : ∀ l r : List Char,
    noHSpair (l ++ r) = true → noHSpair r = true
  | [], _, h => h
  | c :: cs, r, h => by
    rw [List.cons_append] at h
    exact noHSpair_append_right cs r (noHSpair_tail h)

theorem noHSpair_of_prefix {l r : List Char} (h : l <+: r)
    (hr : noHSpair r = true) : noHSpair l = true := by
  obtain ⟨t, rfl⟩ := h
  exact noHSpair_append_left l t hr

theorem noHSpair_of_suffix {l r : List Char} (h : l <:+ r)
    (hr : noHSpair r = true) : noHSpair l = true := by
  obtain ⟨t, rfl⟩ := h
  exact noHSpair_append_right t l hr

theorem head_dropWhile_not (p : Char → Bool) : ∀ (l : List Char) {c : Char},
    (l.dropWhile p).head? = some c → p c = false
  | [], c, h => by simp [List.dropWhile] at h
  | c0 :: cs, c, h => by
    by_cases hc0 : p c0 = true
    · rw [List.dropWhile_cons_of_pos hc0] at h
      exact head_dropWhile_not p cs h
    · rw [List.dropWhile_cons_of_neg hc0] at h
      simp only [List.head?_cons, Option.some.injEq] at h
      subst h
      simpa using hc0

theorem dropWhile_eq_self_of_head (p : Char → Bool) (l : List Char)
    (h : ∀ c, l.head? = some c → p c = false) : l.dropWhile p = l := by
  cases l with
  | nil => rfl
  | cons c cs => exact List.dropWhile_cons_of_neg (by simp [h c rfl])

theorem dropTrailing_isPrefixOf (p : Char → Bool) (l : List Char) :
    dropTrailing p l <+: l := by
  have h1 : l.reverse.dropWhile p <:+ l.reverse := List.dropWhile_suffix p
  obtain ⟨t, ht⟩ := h1
  refine ⟨t.reverse, ?_⟩
  have := congrArg List.reverse ht
  simpa [dropTrailing] using this

theorem dropTrailing_eq_self (p : Char → Bool) (l : List Char)
    (h : ∀ c, l.getLast? = some c → p c = false) : dropTrailing p l = l := by
  unfold dropTrailing
  rw [dropWhile_eq_self_of_head p l.reverse (by simpa using h), List.reverse_reverse]

theorem stripHyphens_eq_self (l : List Char)
    (hh : ∀ c, l.head? = some c → (c == '-') = false)
    (hl : ∀ c, l.getLast? = some c → (c == '-') = false) :
    stripHyphens l = l := by
  unfold stripHyphens
  rw [dropWhile_eq_self_of_head _ l hh, dropTrailing_eq_self _ l hl]

end Kilo

namespace Kilo

theorem mem_stripHyphens {c : Char} {l : List Char} (h : c ∈ stripHyphens l) : c ∈ l := by
  unfold stripHyphens at h
  have h1 := (dropTrailing_isPrefixOf (fun x => x == '-') (l.dropWhile (fun x => x == '-'))).mem h
  exact (List.dropWhile_suffix (fun x => x == '-')).mem h1

theorem mem_slugChars_facts {c : Char} {l : List Char} (hc : c ∈ slugChars l) :
    Char.toLower c = c ∧ keepSlugChar c = true ∧ Py.pyIsSpaceChar c = false := by
  unfold slugChars at hc
  have h1 := mem_stripHyphens (List.mem_of_mem_take hc)
  rcases mem_collapseAux _ _ h1 with rfl | ⟨h2, h3⟩
  · refine ⟨rfl, rfl, rfl⟩
  · rcases List.mem_filter.mp h2 with ⟨h4, h5⟩
    rcases List.mem_map.mp h4 with ⟨x, hx, rfl⟩
    refine ⟨char_toLower_toLower x, h5, ?_⟩
    have : isHyphSpace (Char.toLower x) = false := h3
    simp only [isHyphSpace, Bool.or_eq_false_iff] at this
    exact this.2

theorem noHSpair_slugChars (l : List Char) : noHSpair (slugChars l) = true := by
  unfold slugChars
  apply noHSpair_of_prefix (List.take_prefix 30 _)
  have hstrip : stripHyphens (collapseAux false ((l.map Char.toLower).filter keepSlugChar))
      <+: (collapseAux false ((l.map Char.toLower).filter keepSlugChar)).dropWhile (fun x => x == '-') :=
    dropTrailing_isPrefixOf _ _
  have hp := noHSpair_collapseAux ((l.map Char.toLower).filter keepSlugChar) false
  have hdw := noHSpair_of_suffix (List.dropWhile_suffix (fun x => x == '-')) hp
  exact noHSpair_of_prefix hstrip hdw

theorem head_of_prefix {l r : List Char} {c : Char} (h : l <+: r)
    (hc : l.head? = some c) : r.head? = some c := by
  obtain ⟨t, rfl⟩ := h
  cases l with
  | nil => simp at hc
  | cons x xs => simpa using hc

theorem head_slugChars_not_hyphen {c : Char} {l : List Char}
    (h : (slugChars l).head? = some c) : (c == '-') = false := by
  unfold slugChars at h
  set w := stripHyphens (collapseAux false ((l.map Char.toLower).filter keepSlugChar)) with hw
  have hhead : w.head? = some c := by
    cases hq : w with
    | nil => rw [hq] at h; simp at h
    | cons x xs =>
      rw [hq] at h
      have hx : (List.take 30 (x :: xs)).head? = some x := rfl
      rw [hx] at h
      simpa using h
  have hdw : ((collapseAux false ((l.map Char.toLower).filter keepSlugChar)).dropWhile
      (fun x => x == '-')).head? = some c := by
    apply head_of_prefix _ hhead
    rw [hw]
    unfold stripHyphens
    exact dropTrailing_isPrefixOf _ _
  exact head_dropWhile_not (fun x => x == '-') _ hdw

end Kilo

namespace Kilo

theorem slugChars_idempotent (l : List Char)
    (hlast : (slugChars l).getLast? ≠ some '-') :
    slugChars (slugChars l) = slugChars l := by
  have hfacts : ∀ c ∈ slugChars l,
      Char.toLower c = c ∧ keepSlugChar c = true ∧ Py.pyIsSpaceChar c = false :=
    fun c hc => mem_slugChars_facts hc
  have hmap : (slugChars l).map Char.toLower = slugChars l := by
    have := List.map_congr_left (g := id) (l := slugChars l)
      (f := Char.toLower) (fun a ha => (hfacts a ha).1)
    simpa using this
  have hfilter : (slugChars l).filter keepSlugChar = slugChars l :=
    List.filter_eq_self.mpr (fun c hc => (hfacts c hc).2.1)
  have hcollapse : collapseAux false (slugChars l) = slugChars l :=
    collapseAux_eq_self (slugChars l) (fun c hc => (hfacts c hc).2.2) (noHSpair_slugChars l)
  have hstrip : stripHyphens (slugChars l) = slugChars l := by
    apply stripHyphens_eq_self
    · intro c hc
      exact head_slugChars_not_hyphen hc
    · intro c hc
      have : c ≠ '-' := fun h => hlast (h ▸ hc)
      simpa using this
  have hlen : (slugChars l).length ≤ 30 := by
    unfold slugChars
    simp [List.length_take]
  have htake : (slugChars l).take 30 = slugChars l := List.take_of_length_le hlen
  show (stripHyphens (collapseAux false
      (((slugChars l).map Char.toLower).filter keepSlugChar))).take 30 = slugChars l
  rw [hmap, hfilter, hcollapse, hstrip, htake]

end Kilo


/-- C6 counterexample: slugification is not idempotent.  For a title of 29
characters, a space and one more character, the slug truncation to 30
characters leaves a trailing hyphen, which a second slugification strips. -/
theorem c6_counterexample :
    Kilo.pySlug "aaaaaaaaaaaaaaaaaaaaaaaaaaaaa b" = "aaaaaaaaaaaaaaaaaaaaaaaaaaaaa-"
    ∧ Kilo.pySlug (Kilo.pySlug "aaaaaaaaaaaaaaaaaaaaaaaaaaaaa b")
        = "aaaaaaaaaaaaaaaaaaaaaaaaaaaaa" := by
  exact ⟨by decide, by decide⟩

/-- C6 amended: branch-name derivation is the pure transform
`"linear/" + lowercase(identifier) + "-" + slug(title)`; the slug function
is idempotent on every title whose slug does not end in a hyphen (the
truncation to 30 characters can expose a trailing hyphen, which a second
slugification would strip — the only failure of idempotence); and the title
`"Fix: login bug!!"` yields a branch name containing `fix-login-bug`. -/
theorem c6_generate_branch_name_amended :
    (∀ (ident title : String),
      Kilo.generate_branch_name { identifier := some ident, title := some title }
        = "linear/" ++ Py.pyLower ident ++ "-" ++ Kilo.pySlug title)
  ∧ (∀ t : String, (Kilo.pySlug t).data.getLast? ≠ some '-' →
      Kilo.pySlug (Kilo.pySlug t) = Kilo.pySlug t)
  ∧ Kilo.generate_branch_name { identifier := some "TEAM-1", title := some "Fix: login bug!!" }
      = "linear/team-1-fix-login-bug" := by
  refine ⟨fun ident title => rfl, fun t ht => ?_, by decide⟩
  exact congrArg String.mk (Kilo.slugChars_idempotent t.data ht)

/-- Witness for C6 at a concrete input: the specification's own example
title, whose slug is hyphen-free at the end. -/
theorem c6_generate_branch_name_amended_witness :
    Kilo.pySlug (Kilo.pySlug "Fix: login bug!!") = Kilo.pySlug "Fix: login bug!!" :=
  c6_generate_branch_name_amended.2.1 "Fix: login bug!!" (by decide)

/-- C7: with the remote API disabled or no (or an empty) API key configured,
`create_session` transmits nothing and fabricates a local pseudo-session
whose id is `"local-"` followed by the zero-padded hex of the masked hash
of the prompt — deterministic in the prompt and independent of every other
argument — with mode `"local"`; a successful remote submission yields mode
`"cloud"`; and a status query for any id with the `"local-"` prefix
short-circuits to the canned pending answer with no network call. -/
theorem c7_local_mode_correct :
    (∀ (pyHash : String → Int) (remote : Kilo.SessionRequest → Kilo.RemoteOutcome)
        (base_url repo task agent : String) (b : Option String) (bb : String)
        (enabled : Bool) (key : Option String),
      (!enabled || !Py.pyTruthy key) = true →
        Kilo.create_session enabled key remote pyHash base_url repo task agent b bb
          = (.ok { session_id := some ("local-" ++ Kilo.hex8 (Kilo.maskHash (pyHash task))),
                   status := "queued", mode := "local", branch := b, url := none }, none))
  ∧ (∀ (pyHash : String → Int) (r1 r2 : Kilo.SessionRequest → Kilo.RemoteOutcome)
        (u1 u2 p1 p2 a1 a2 : String) (b1 b2 : Option String) (bb1 bb2 : String)
        (e1 e2 : Bool) (k1 k2 : Option String) (task : String),
      (!e1 || !Py.pyTruthy k1) = true → (!e2 || !Py.pyTruthy k2) = true →
        ((Kilo.create_session e1 k1 r1 pyHash u1 p1 task a1 b1 bb1).1.map
            (fun s => s.session_id))
          = ((Kilo.create_session e2 k2 r2 pyHash u2 p2 task a2 b2 bb2).1.map
            (fun s => s.session_id)))
  ∧ (∀ (pyHash : String → Int) (remote : Kilo.SessionRequest → Kilo.RemoteOutcome)
        (base_url repo task agent : String) (b : Option String) (bb : String)
        (key : Option String) (id status : Option String),
      Py.pyTruthy key = true →
      remote { repository := repo, prompt := task, agent := agent, auto := true }
        = .ok id status →
        Kilo.create_session true key remote pyHash base_url repo task agent b bb
          = (.ok { session_id := id, status := status.getD "created", mode := "cloud",
                   branch := none,
                   url := some (base_url ++ "/sessions/" ++ Kilo.renderOpt id) },
             some { repository := repo, prompt := task, agent := agent, auto := true }))
  ∧ (∀ (enabled : Bool) (remoteGet : String → Except String Json) (sid : String),
      Py.pyStartsWith sid "local-" = true →
        Kilo.get_session_status enabled remoteGet sid
          = (.ok (.info sid "pending" "local"), false)) := by
  have hlocal : ∀ (pyHash : String → Int) (remote : Kilo.SessionRequest → Kilo.RemoteOutcome)
      (base_url repo task agent : String) (b : Option String) (bb : String)
      (enabled : Bool) (key : Option String),
      (!enabled || !Py.pyTruthy key) = true →
        Kilo.create_session enabled key remote pyHash base_url repo task agent b bb
          = (.ok { session_id := some ("local-" ++ Kilo.hex8 (Kilo.maskHash (pyHash task))),
                   status := "queued", mode := "local", branch := b, url := none }, none) := by
    intro pyHash remote base_url repo task agent b bb enabled key h
    simp only [Kilo.create_session, h, if_pos]
    rfl
  refine ⟨hlocal, ?_, ?_, ?_⟩
  · intro pyHash r1 r2 u1 u2 p1 p2 a1 a2 b1 b2 bb1 bb2 e1 e2 k1 k2 task h1 h2
    rw [hlocal pyHash r1 u1 p1 task a1 b1 bb1 e1 k1 h1,
        hlocal pyHash r2 u2 p2 task a2 b2 bb2 e2 k2 h2]
    rfl
  · intro pyHash remote base_url repo task agent b bb key id status hkey hremote
    have hcond : (!(true : Bool) || !Py.pyTruthy key) = false := by simp [hkey]
    simp only [Kilo.create_session, hcond, Bool.false_eq_true, if_neg, hremote]
    simp
  · intro enabled remoteGet sid h
    simp only [Kilo.get_session_status, h, Bool.or_true, if_pos]

/-- Witness for C7 at concrete inputs: a disabled client fabricates the
local session for the constant hash function and prompt `"p"`, and a
status query for `"local-00000000"` short-circuits. -/
theorem c7_local_mode_correct_witness :
    Kilo.create_session false none (fun _ => .fail "down") (fun _ => 0) "https://x" "r" "p"
        "build" (some "br") "develop"
      = (.ok { session_id := some "local-00000000", status := "queued", mode := "local",
               branch := some "br", url := none }, none)
    ∧ Kilo.get_session_status true (fun _ => .error "down") "local-00000000"
      = (.ok (.info "local-00000000" "pending" "local"), false) :=
  ⟨by
    have h := c7_local_mode_correct.1 (fun _ => 0) (fun _ => .fail "down") "https://x" "r" "p"
      "build" (some "br") "develop" false none (by decide)
    rw [h]
    rfl,
   c7_local_mode_correct.2.2.2 true (fun _ => .error "down") "local-00000000" (by decide)⟩

/-- C10: the request transmitted by `create_session` — present exactly in
cloud mode — carries as its prompt the unmodified `build_task_prompt` of the
issue, independent of `branch_name` and `base_branch`; in local mode the id
is the hash of that same unmodified prompt; and the enhanced task text (the
branch and pull-request instructions) differs from the prompt whenever a
branch is given, so it is never what is transmitted or hashed. -/
theorem c10_prompt_untouched_by_branch :
    (∀ (enabled : Bool) (key : Option String)
        (remote : Kilo.SessionRequest → Kilo.RemoteOutcome) (pyHash : String → Int)
        (base_url repo agent : String) (issue : Linear.IssueSummary)
        (b : Option String) (bb : String),
      (Kilo.create_session enabled key remote pyHash base_url repo
          (Kilo.build_task_prompt issue) agent b bb).2
        = if !enabled || !Py.pyTruthy key then none
          else some { repository := repo, prompt := Kilo.build_task_prompt issue,
                      agent := agent, auto := true })
  ∧ (∀ (enabled : Bool) (key : Option String)
        (remote : Kilo.SessionRequest → Kilo.RemoteOutcome) (pyHash : String → Int)
        (base_url repo agent : String) (issue : Linear.IssueSummary)
        (b1 b2 : Option String) (bb1 bb2 : String),
      (Kilo.create_session enabled key remote pyHash base_url repo
          (Kilo.build_task_prompt issue) agent b1 bb1).2
        = (Kilo.create_session enabled key remote pyHash base_url repo
          (Kilo.build_task_prompt issue) agent b2 bb2).2)
  ∧ (∀ (enabled : Bool) (key : Option String)
        (remote : Kilo.SessionRequest → Kilo.RemoteOutcome) (pyHash : String → Int)
        (base_url repo agent : String) (issue : Linear.IssueSummary)
        (b : Option String) (bb : String),
      (!enabled || !Py.pyTruthy key) = true →
        ((Kilo.create_session enabled key remote pyHash base_url repo
            (Kilo.build_task_prompt issue) agent b bb).1.map (fun s => s.session_id))
          = .ok (some ("local-"
              ++ Kilo.hex8 (Kilo.maskHash (pyHash (Kilo.build_task_prompt issue))))))
  ∧ (∀ (task : String) (b : Option String) (bb : String),
      Py.pyTruthy b = true → Kilo.enhance_task task b bb ≠ task) := by
  have hsent : ∀ (enabled : Bool) (key : Option String)
      (remote : Kilo.SessionRequest → Kilo.RemoteOutcome) (pyHash : String → Int)
      (base_url repo agent : String) (issue : Linear.IssueSummary)
      (b : Option String) (bb : String),
      (Kilo.create_session enabled key remote pyHash base_url repo
          (Kilo.build_task_prompt issue) agent b bb).2
        = if !enabled || !Py.pyTruthy key then none
          else some { repository := repo, prompt := Kilo.build_task_prompt issue,
                      agent := agent, auto := true } := by
    intro enabled key remote pyHash base_url repo agent issue b bb
    by_cases h : (!enabled || !Py.pyTruthy key) = true
    · simp [Kilo.create_session, h]
    · have hf : (!enabled || !Py.pyTruthy key) = false := by simpa using h
      simp only [Kilo.create_session, hf, Bool.false_eq_true, if_neg, if_false]
      cases remote { repository := repo, prompt := Kilo.build_task_prompt issue,
                     agent := agent, auto := true } <;> simp
  refine ⟨hsent, ?_, ?_, ?_⟩
  · intro enabled key remote pyHash base_url repo agent issue b1 b2 bb1 bb2
    rw [hsent enabled key remote pyHash base_url repo agent issue b1 bb1,
        hsent enabled key remote pyHash base_url repo agent issue b2 bb2]
  · intro enabled key remote pyHash base_url repo agent issue b bb h
    simp only [Kilo.create_session, h, if_pos]
    rfl
  · intro task b bb hb heq
    have hlen := congrArg String.length heq
    rw [Kilo.enhance_task, if_pos hb] at hlen
    simp only [String.length_append] at hlen
    have h1 : 0 < String.length "' for this work." := by decide
    omega

/-- Witness for C10 at concrete inputs: a disabled client hashes the built
prompt for its local id, and the enhancement differs from the prompt. -/
theorem c10_prompt_untouched_by_branch_witness :
    ((Kilo.create_session false none (fun _ => .fail "down") (fun _ => 7) "u" "r"
        (Kilo.build_task_prompt {}) "build" (some "br") "dev").1.map
          (fun s => s.session_id))
      = .ok (some ("local-"
          ++ Kilo.hex8 (Kilo.maskHash ((fun _ => (7 : Int)) (Kilo.build_task_prompt {})))))
    ∧ Kilo.enhance_task "p" (some "br") "dev" ≠ "p" :=
  ⟨c10_prompt_untouched_by_branch.2.2.1 false none (fun _ => .fail "down") (fun _ => 7)
      "u" "r" "build" {} (some "br") "dev" (by decide),
   c10_prompt_untouched_by_branch.2.2.2 "p" (some "br") "dev" (by decide)⟩

/-- C9: the claimed behavior is unreachable.  `submit_task` reads
`settings.default_repo_url` (via `_get_repo_from_issue`, when `repo_url` is
falsy) and `settings.default_base_branch` (unconditionally), neither of
which the `Settings` class declares, and both reads precede the `try`
block — so every call raises `AttributeError` before the collaborator is
ever contacted: it returns neither the success nor the failure dict and
records no session (the result is independent of the collaborator, the
client configuration and the tracker contents, and the state is left
untouched only because the exception propagates). -/
theorem c9_submit_task_attribute_error :
    ∀ (st : Kilo.RouterState) (enabled : Bool) (key : Option String)
      (remote : Kilo.SessionRequest → Kilo.RemoteOutcome) (pyHash : String → Int)
      (base_url : String) (settingsValue : String → String)
      (agent : String) (issue : Linear.IssueSummary) (repo_url : Option String),
      Kilo.submit_task st enabled key remote pyHash base_url settingsValue agent issue
          repo_url
        = (.error (if Py.pyTruthy repo_url then "AttributeError: default_base_branch"
                   else "AttributeError: default_repo_url"), st) := by
  intro st enabled key remote pyHash base_url settingsValue agent issue repo_url
  have hb : "default_base_branch" ∉ Kilo.settingsFields := by decide
  have hr : "default_repo_url" ∉ Kilo.settingsFields := by decide
  by_cases h : Py.pyTruthy repo_url = true
  · simp [Kilo.submit_task, h, Kilo.settingsGetattr, hb]
  · have hf : Py.pyTruthy repo_url = false := by simpa using h
    simp [Kilo.submit_task, hf, Kilo.get_repo_from_issue, Kilo.settingsGetattr, hr]

/-- C8 counterexample: `get_active_sessions` is a shallow copy.  For a
tracker with one session, writing through the entry address reachable from
the returned copy changes the tracker's observed session table, though the
claim requires tracker state to be unaffected by any mutation of the
returned value. -/
theorem c8_counterexample :
    Kilo.observeSessions
      (Kilo.heapWrite
        { heap := [{ agent_id := "a", issue := {}, branch := "b", base_branch := "d",
                     repo := "r", created_at := "now" }],
          active_sessions := [(some "sid", 0)] }
        ((Kilo.get_active_sessions
          { heap := [{ agent_id := "a", issue := {}, branch := "b", base_branch := "d",
                       repo := "r", created_at := "now" }],
            active_sessions := [(some "sid", 0)] }).headD (none, 0)).2
        { agent_id := "x", issue := {}, branch := "b", base_branch := "d",
          repo := "r", created_at := "now" })
      ≠ Kilo.observeSessions
        { heap := [{ agent_id := "a", issue := {}, branch := "b", base_branch := "d",
                     repo := "r", created_at := "now" }],
          active_sessions := [(some "sid", 0)] } := by decide

/-- C8 amended: `get_active_sessions` returns a fresh top-level dict holding
the same key-to-entry pairs as the tracker's table (so rebinding or removing
keys in the copy never touches the tracker), but the per-session entry
objects are shared by reference: in-place mutation of any entry reachable
from the copy is visible in the tracker's observed table. -/
theorem c8_get_active_sessions_amended :
    (∀ st : Kilo.RouterState, Kilo.get_active_sessions st = st.active_sessions)
  ∧ (∀ (st : Kilo.RouterState) (k : Option String) (a : Nat) (e : Kilo.SessionEntry),
      (k, a) ∈ Kilo.get_active_sessions st → a < st.heap.length →
      st.heap.get? a ≠ some e →
      Kilo.observeSessions (Kilo.heapWrite st a e) ≠ Kilo.observeSessions st) := by
  refine ⟨fun st => rfl, ?_⟩
  intro st k a e hmem hlt hne hobs
  unfold Kilo.observeSessions Kilo.heapWrite at hobs
  simp only [List.map_inj_left] at hobs
  have := hobs (k, a) hmem
  simp only [Prod.mk.injEq, true_and] at this
  apply hne
  rw [← this]
  rw [List.get?_eq_getElem?]
  rw [List.getElem?_set_self hlt]

/-- Witness for C8 at a concrete input: overwriting the single shared entry
through the copy's address is visible in the tracker. -/
theorem c8_get_active_sessions_amended_witness :
    Kilo.observeSessions
      (Kilo.heapWrite
        { heap := [{ agent_id := "a2", issue := {}, branch := "b", base_branch := "d",
                     repo := "r", created_at := "now" }],
          active_sessions := [(some "k", 0)] }
        0
        { agent_id := "y", issue := {}, branch := "b", base_branch := "d",
          repo := "r", created_at := "now" })
      ≠ Kilo.observeSessions
        { heap := [{ agent_id := "a2", issue := {}, branch := "b", base_branch := "d",
                     repo := "r", created_at := "now" }],
          active_sessions := [(some "k", 0)] } :=
  c8_get_active_sessions_amended.2
    { heap := [{ agent_id := "a2", issue := {}, branch := "b", base_branch := "d",
                 repo := "r", created_at := "now" }],
      active_sessions := [(some "k", 0)] }
    (some "k") 0
    { agent_id := "y", issue := {}, branch := "b", base_branch := "d",
      repo := "r", created_at := "now" }
    (by decide) (by decide) (by decide)
